import Mathlib

/-!
Verification of the recurring-event date generation engine of the calendar
repository.  The engine lives in two source variants:

* `src/utils/dateUtils.ts` (refactored): helpers `isLeapYear`,
  `getDaysInMonth`, `addDays`, `addWeeks`, `addMonths`, `addYears`,
  `isValidMonthlyRecurrence`, `isValidYearlyRecurrence`, `shouldCreateEvent`,
  `calculateNextDate`, `getEffectiveEndDate`, `generateRecurringEvents`;
* the original inline variant of `generateRecurringEvents`
  (file `recurrenceUtils.ts`, present as an unnamed source part).

Dates are JavaScript `Date` values used at day granularity (all inputs are
midnight dates).  We embed them as calendar triples `(year, month, day)` with
the JS conventions: `month` is 0-based, `day` is 1-based.  JS `Date` field
setters normalise out-of-range fields by rolling forward into subsequent
months; `normDate` below implements exactly that normalisation.  Chronological
comparison of `Date.getTime()` values coincides, for such day-granularity
dates, with lexicographic comparison of the triples, which we realise through
the injective key `ordKey`.

A generated occurrence is the base event template with only the `date` field
varying, so occurrences are represented by their dates; `formatDate` produces
the `YYYY-MM-DD` string stored in the emitted record.  The `while` loops of
both generator variants are embedded as fuel-indexed recursions returning
`Option`: `none` means the loop was still running when the fuel ran out, so
"the loop terminates" is "`some` for sufficiently large fuel" and "the loop
diverges" is "`none` for every fuel".
-/

/-- A JavaScript calendar date at day granularity: 0-based month, 1-based day. -/
structure CalDate where
  year : Int
  month : Nat
  day : Nat
deriving DecidableEq, Repr

/-- Gregorian leap-year rule, as written in `recurrenceUtils.ts` and inline in
the original generator: divisible by 4 and not by 100, or divisible by 400. -/
def isLeapYear (y : Int) : Bool :=
  decide ((y % 4 = 0 ∧ ¬ y % 100 = 0) ∨ y % 400 = 0)

/-- Number of days in a month given 0-based month index, i.e. the value JS
`new Date(year, month + 1, 0).getDate()` produces. -/
def daysInMonth0 (y : Int) (m : Nat) : Nat :=
  if m = 1 then (if isLeapYear y then 29 else 28)
  else if m = 3 ∨ m = 5 ∨ m = 8 ∨ m = 10 then 30
  else 31

/-- `getDaysInMonth(year, month)` from `dateUtils.ts`: days in the 1-based
month `m`, computed in the source as `new Date(year, m, 0).getDate()`. -/
def getDaysInMonth (y : Int) (m : Nat) : Nat :=
  daysInMonth0 y (m - 1)

/-- Successor month (wrapping into the next year), used by JS field
normalisation when a day count overflows the current month. -/
def monthSucc (y : Int) (m : Nat) : Int × Nat :=
  if m = 11 then (y + 1, 0) else (y, m + 1)

/-- Fuel-indexed worker for `normDate`.  Each roll-over removes at least 28
days, so fuel `d` always suffices. -/
def normGo : Nat → Int → Nat → Nat → CalDate
  | 0, y, m, d => ⟨y, m, d⟩
  | fuel + 1, y, m, d =>
    if d ≤ daysInMonth0 y m then ⟨y, m, d⟩
    else normGo fuel (monthSucc y m).1 (monthSucc y m).2 (d - daysInMonth0 y m)

/-- JS `Date` field normalisation: the date whose day-offset from the first of
month `m` of year `y` is `d - 1`, rolling overflowing days into subsequent
months exactly as the JS `Date` setters do. -/
def normDate (y : Int) (m : Nat) (d : Nat) : CalDate :=
  normGo d y m d

/-- JS `date.setDate(d)` for a positive day argument. -/
def setDateJS (dt : CalDate) (d : Nat) : CalDate :=
  normDate dt.year dt.month d

/-- JS `date.setDate(0)`: the last day of the month preceding the current one. -/
def setDateZero (dt : CalDate) : CalDate :=
  if dt.month = 0 then ⟨dt.year - 1, 11, daysInMonth0 (dt.year - 1) 11⟩
  else ⟨dt.year, dt.month - 1, daysInMonth0 dt.year (dt.month - 1)⟩

/-- JS `date.setMonth(mT)`: the month index is carried into the year by floor
division (JS accepts any integer month), then the day is normalised. -/
def setMonthJS (dt : CalDate) (mT : Int) : CalDate :=
  normDate (dt.year + mT / 12) (mT % 12).toNat dt.day

/-- JS `date.setFullYear(yT)`: replaces the year, then normalises the day
(this is where Feb 29 spills to Mar 1 in a non-leap target year). -/
def setFullYearJS (dt : CalDate) (yT : Int) : CalDate :=
  normDate yT dt.month dt.day

/-- Chronological key: strictly monotone in calendar order for dates with
`month < 12` and `1 ≤ day ≤ 31`, mirroring `Date.getTime()` comparisons. -/
def ordKey (dt : CalDate) : Int :=
  (dt.year * 12 + dt.month) * 32 + dt.day

/-- Well-formedness of an embedded date: exactly the shapes reachable as JS
`Date` values at day granularity. -/
def wfDate (dt : CalDate) : Prop :=
  dt.month < 12 ∧ 1 ≤ dt.day ∧ dt.day ≤ daysInMonth0 dt.year dt.month

instance (dt : CalDate) : Decidable (wfDate dt) := by
  unfold wfDate; infer_instance

/-- `addMonths(date, months)` from `dateUtils.ts`: `setMonth` then, when the
resulting month is not the expected one (day overflow spilled forward),
`setDate(0)` to back up to the last day of the expected month.  The source
computes the expected month as `(((m + n) % 12) + 12) % 12` with the JS
truncating remainder. -/
def addMonths (dt : CalDate) (months : Int) : CalDate :=
  let result := setMonthJS dt (dt.month + months)
  let expectedMonth := ((((dt.month : Int) + months).tmod 12 + 12).tmod 12).toNat
  if result.month ≠ expectedMonth then setDateZero result else result

/-- `addYears(date, years)` from `dateUtils.ts`: `setFullYear` then, when the
original date was Feb 29 and the result spilled out of February,
`setDate(0)` to back up to Feb 28. -/
def addYears (dt : CalDate) (years : Int) : CalDate :=
  let result := setFullYearJS dt (dt.year + years)
  if dt.month = 1 ∧ dt.day = 29 ∧ result.month ≠ 1 then setDateZero result else result

/-- `addDays(date, days)` from `dateUtils.ts` (nonnegative day counts, the
only ones the generator uses). -/
def addDays (dt : CalDate) (days : Nat) : CalDate :=
  setDateJS dt (dt.day + days)

/-- `fillZero(value, size)` from `dateUtils.ts`: decimal digits left-padded
with zeros. -/
def fillZero (v : Nat) (size : Nat := 2) : String :=
  let s := toString v
  String.mk (List.replicate (size - s.length) '0') ++ s

/-- `formatDate(currentDate)` from `dateUtils.ts`: the `YYYY-MM-DD` string
stored in each emitted occurrence. -/
def formatDate (dt : CalDate) : String :=
  toString dt.year ++ "-" ++ fillZero (dt.month + 1) ++ "-" ++ fillZero dt.day

/-- `MAX_RECURRENCE_DATE = '2025-12-31'`, the recurrence horizon constant. -/
def maxRecurrenceDate : CalDate := ⟨2025, 11, 31⟩

/-- `isValidMonthlyRecurrence(currentDate, initialDay)`: for a monthly rule
started on the 31st, emit only in months that actually have 31 days. -/
def isValidMonthlyRecurrence (currentDate : CalDate) (initialDay : Nat) : Bool :=
  if initialDay ≠ 31 then true
  else decide (getDaysInMonth currentDate.year (currentDate.month + 1) = 31)

/-- `isValidYearlyRecurrence(currentDate, initialMonth, initialDay)`: for a
yearly rule started on Feb 29, emit only in leap years. -/
def isValidYearlyRecurrence (currentDate : CalDate) (initialMonth initialDay : Nat) : Bool :=
  if initialMonth ≠ 1 ∨ initialDay ≠ 29 then true
  else isLeapYear currentDate.year

/-- `shouldCreateEvent(repeatType, currentDate, initialMonth, initialDay)`. -/
def shouldCreateEvent (repeatType : String) (currentDate : CalDate)
    (initialMonth initialDay : Nat) : Bool :=
  if repeatType = "monthly" then isValidMonthlyRecurrence currentDate initialDay
  else if repeatType = "yearly" then isValidYearlyRecurrence currentDate initialMonth initialDay
  else true

/-- `calculateNextDate(currentDate, repeatType, interval, initialMonth,
initialDay)`: the in-place advancement of the running date, expressed as a
pure function.  An unrecognised type leaves the date unchanged (the `switch`
has no default case). -/
def calculateNextDate (currentDate : CalDate) (repeatType : String) (interval : Nat)
    (initialMonth initialDay : Nat) : CalDate :=
  if repeatType = "daily" then
    setDateJS currentDate (currentDate.day + interval)
  else if repeatType = "weekly" then
    setDateJS currentDate (currentDate.day + interval * 7)
  else if repeatType = "monthly" then
    let c1 := setMonthJS currentDate (currentDate.month + interval)
    let daysInNewMonth := getDaysInMonth c1.year (c1.month + 1)
    setDateJS c1 (min initialDay daysInNewMonth)
  else if repeatType = "yearly" then
    let c1 := setFullYearJS currentDate (currentDate.year + interval)
    let daysInNewMonth := getDaysInMonth c1.year (initialMonth + 1)
    let c2 := setMonthJS c1 initialMonth
    setDateJS c2 (min initialDay daysInNewMonth)
  else currentDate

/-- `getEffectiveEndDate(repeatEndDate)`: clamp the requested end date to the
`2025-12-31` horizon (comparison via `getTime()`). -/
def getEffectiveEndDate (repeatEndDate : CalDate) : CalDate :=
  if ordKey maxRecurrenceDate < ordKey repeatEndDate then maxRecurrenceDate
  else repeatEndDate

/-- The `while` loop of the refactored `generateRecurringEvents`, fuel-indexed.
Each iteration: emit the current date when `shouldCreateEvent` allows it,
advance via `calculateNextDate`, and `break` when the type is `none`.
`none` as a result means the fuel ran out with the loop still running. -/
def genLoopA (repeatType : String) (interval initialMonth initialDay : Nat)
    (endD : CalDate) : Nat → CalDate → Option (List CalDate)
  | fuel, currentDate =>
    if ordKey currentDate ≤ ordKey endD then
      match fuel with
      | 0 => none
      | fuel + 1 =>
        let head :=
          if shouldCreateEvent repeatType currentDate initialMonth initialDay
          then [currentDate] else []
        if repeatType = "none" then some head
        else
          (genLoopA repeatType interval initialMonth initialDay endD fuel
            (calculateNextDate currentDate repeatType interval initialMonth initialDay)).map
            (head ++ ·)
    else some []

/-- Refactored `generateRecurringEvents` (`dateUtils.ts`): emitted occurrence
dates for the given repeat rule, start date and requested end date. -/
def generateRecurringEventsA (repeatType : String) (interval : Nat)
    (startDate repeatEndDate : CalDate) (fuel : Nat) : Option (List CalDate) :=
  genLoopA repeatType interval startDate.month startDate.day
    (getEffectiveEndDate repeatEndDate) fuel startDate

/-- The `while` loop of the original inline `generateRecurringEvents`: the
special-case predicates and the per-type advancement are written inline, and
the advancement chain ends in `else break`, so any type other than the four
stepping ones (including `none` and malformed values) stops the loop. -/
def genLoopB (repeatType : String) (interval initialMonth initialDay : Nat)
    (endD : CalDate) : Nat → CalDate → Option (List CalDate)
  | fuel, currentDate =>
    if ordKey currentDate ≤ ordKey endD then
      match fuel with
      | 0 => none
      | fuel + 1 =>
        let shouldAddEvent : Bool :=
          if repeatType = "monthly" ∧ initialDay = 31 then
            !decide (getDaysInMonth currentDate.year (currentDate.month + 1) < 31)
          else if repeatType = "yearly" ∧ initialMonth = 1 ∧ initialDay = 29 then
            isLeapYear currentDate.year
          else true
        let head := if shouldAddEvent then [currentDate] else []
        if repeatType = "daily" then
          (genLoopB repeatType interval initialMonth initialDay endD fuel
            (setDateJS currentDate (currentDate.day + interval))).map (head ++ ·)
        else if repeatType = "weekly" then
          (genLoopB repeatType interval initialMonth initialDay endD fuel
            (setDateJS currentDate (currentDate.day + interval * 7))).map (head ++ ·)
        else if repeatType = "monthly" then
          let c1 := setMonthJS currentDate (currentDate.month + interval)
          let daysInNewMonth := getDaysInMonth c1.year (c1.month + 1)
          (genLoopB repeatType interval initialMonth initialDay endD fuel
            (setDateJS c1 (min initialDay daysInNewMonth))).map (head ++ ·)
        else if repeatType = "yearly" then
          let c1 := setFullYearJS currentDate (currentDate.year + interval)
          let daysInNewMonth := getDaysInMonth c1.year (initialMonth + 1)
          let c2 := setMonthJS c1 initialMonth
          (genLoopB repeatType interval initialMonth initialDay endD fuel
            (setDateJS c2 (min initialDay daysInNewMonth))).map (head ++ ·)
        else some head
    else some []

/-- Original inline `generateRecurringEvents` (`recurrenceUtils.ts`), with its
inline horizon clamp. -/
def generateRecurringEventsB (repeatType : String) (interval : Nat)
    (startDate repeatEndDate : CalDate) (fuel : Nat) : Option (List CalDate) :=
  let maxDate : CalDate := ⟨2025, 11, 31⟩
  let effectiveEndDate := if ordKey maxDate < ordKey repeatEndDate then maxDate
    else repeatEndDate
  genLoopB repeatType interval startDate.month startDate.day effectiveEndDate fuel startDate

/-- Divergence of the refactored generator loop: no amount of fuel completes
the `while` loop. -/
def genADiverges (repeatType : String) (interval : Nat)
    (startDate repeatEndDate : CalDate) : Prop :=
  ∀ fuel, generateRecurringEventsA repeatType interval startDate repeatEndDate fuel = none

/-- Modelled from the spec: the monthly next-candidate computation the spec
describes — `addMonths(current, interval)` followed by re-pinning the
day-of-month to `min(originalDay, daysInMonth(resultYear, resultMonth))`.
Stated for comparison with `calculateNextDate`, which the source actually
uses. -/
def monthlyNextSpec (currentDate : CalDate) (interval : Int) (initialDay : Nat) : CalDate :=
  let a := addMonths currentDate interval
  ⟨a.year, a.month, min initialDay (daysInMonth0 a.year a.month)⟩

/-- Year component of the month the monthly step aims at: the running month
advanced by `interval`, carried into the year. -/
def monthlyTargetYear (cur : CalDate) (interval : Nat) : Int :=
  cur.year + ((cur.month + interval) / 12 : Nat)

/-- Month component (0-based) of the month the monthly step aims at. -/
def monthlyTargetMonth (cur : CalDate) (interval : Nat) : Nat :=
  (cur.month + interval) % 12

theorem daysInMonth0_lb (y : Int) (m : Nat) : 28 ≤ daysInMonth0 y m := by
  unfold daysInMonth0
  split
  · split <;> omega
  · split <;> omega

theorem daysInMonth0_ub (y : Int) (m : Nat) : daysInMonth0 y m ≤ 31 := by
  unfold daysInMonth0
  split
  · split <;> omega
  · split <;> omega

theorem daysInMonth0_not_feb (y y' : Int) (m : Nat) (h : m ≠ 1) :
    daysInMonth0 y m = daysInMonth0 y' m := by
  unfold daysInMonth0
  simp [h]

theorem monthSucc_abs (y : Int) (m : Nat) :
    (monthSucc y m).1 * 12 + ((monthSucc y m).2 : Int) = y * 12 + m + 1 := by
  unfold monthSucc
  split <;> simp_all <;> omega

theorem monthSucc_month_lt (y : Int) (m : Nat) (h : m < 12) :
    (monthSucc y m).2 < 12 := by
  unfold monthSucc
  split <;> omega

theorem monthSucc_year_ge (y : Int) (m : Nat) : y ≤ (monthSucc y m).1 := by
  unfold monthSucc
  split <;> simp

theorem normGo_wf (fuel : Nat) : ∀ (y : Int) (m d : Nat), 1 ≤ d → d ≤ fuel → m < 12 →
    wfDate (normGo fuel y m d) := by
  induction fuel with
  | zero => intro y m d h1 h2 _; omega
  | succ fuel ih =>
    intro y m d h1 h2 hm
    unfold normGo
    split
    · exact ⟨hm, h1, by assumption⟩
    · have hlb := daysInMonth0_lb y m
      exact ih _ _ _ (by omega) (by omega) (monthSucc_month_lt y m hm)

theorem normDate_wf (y : Int) (m d : Nat) (h1 : 1 ≤ d) (hm : m < 12) :
    wfDate (normDate y m d) :=
  normGo_wf d y m d h1 (le_refl d) hm

theorem normGo_id (fuel : Nat) (y : Int) (m d : Nat) (hf : 0 < fuel)
    (hd : d ≤ daysInMonth0 y m) : normGo fuel y m d = ⟨y, m, d⟩ := by
  match fuel with
  | fuel + 1 => unfold normGo; simp [hd]

theorem normDate_id (y : Int) (m d : Nat) (h1 : 1 ≤ d)
    (hd : d ≤ daysInMonth0 y m) : normDate y m d = ⟨y, m, d⟩ :=
  normGo_id d y m d h1 hd

theorem normDate_one (y : Int) (m d : Nat) (hd : daysInMonth0 y m < d)
    (hd2 : d - daysInMonth0 y m ≤ daysInMonth0 (monthSucc y m).1 (monthSucc y m).2) :
    normDate y m d = ⟨(monthSucc y m).1, (monthSucc y m).2, d - daysInMonth0 y m⟩ := by
  have hlb := daysInMonth0_lb y m
  unfold normDate
  match hEq : d with
  | d' + 1 =>
    unfold normGo
    rw [if_neg (by omega)]
    exact normGo_id d' _ _ _ (by omega) hd2

theorem normGo_key_lb (fuel : Nat) : ∀ (y : Int) (m d : Nat), 1 ≤ d → d ≤ fuel →
    (y * 12 + m) * 32 + 1 ≤ ordKey (normGo fuel y m d) := by
  induction fuel with
  | zero => intro y m d h1 h2; omega
  | succ fuel ih =>
    intro y m d h1 h2
    unfold normGo
    split
    · unfold ordKey; simp; omega
    · have hlb := daysInMonth0_lb y m
      have := ih (monthSucc y m).1 (monthSucc y m).2 (d - daysInMonth0 y m)
        (by omega) (by omega)
      have habs := monthSucc_abs y m
      omega

theorem normDate_key_lb (y : Int) (m d : Nat) (h1 : 1 ≤ d) :
    (y * 12 + m) * 32 + 1 ≤ ordKey (normDate y m d) :=
  normGo_key_lb d y m d h1 (le_refl d)

theorem normDate_key_gt (y : Int) (m d c : Nat) (hc : c < d) (hc31 : c ≤ 31) :
    (y * 12 + m) * 32 + c < ordKey (normDate y m d) := by
  unfold normDate
  match hEq : d with
  | d' + 1 =>
    unfold normGo
    split
    · unfold ordKey; simp; omega
    · have hlb := daysInMonth0_lb y m
      have := normGo_key_lb d' (monthSucc y m).1 (monthSucc y m).2
        (d' + 1 - daysInMonth0 y m) (by omega) (by omega)
      have habs := monthSucc_abs y m
      omega

theorem normGo_year_ge (fuel : Nat) : ∀ (y : Int) (m d : Nat),
    y ≤ (normGo fuel y m d).year := by
  induction fuel with
  | zero => intro y m d; simp [normGo]
  | succ fuel ih =>
    intro y m d
    unfold normGo
    split
    · simp
    · have := ih (monthSucc y m).1 (monthSucc y m).2 (d - daysInMonth0 y m)
      have := monthSucc_year_ge y m
      omega

theorem normDate_year_ge (y : Int) (m d : Nat) : y ≤ (normDate y m d).year :=
  normGo_year_ge d y m d

theorem wfDate_key_ub (dt : CalDate) (h : wfDate dt) :
    ordKey dt ≤ (dt.year * 12 + 11) * 32 + 31 := by
  obtain ⟨hm, h1, h2⟩ := h
  have := daysInMonth0_ub dt.year dt.month
  unfold ordKey
  omega

theorem wfDate_key_lb (dt : CalDate) (h : wfDate dt) :
    (dt.year * 12) * 32 + 1 ≤ ordKey dt := by
  obtain ⟨hm, h1, h2⟩ := h
  unfold ordKey
  omega

theorem ordKey_eq (dt : CalDate) :
    ordKey dt = (dt.year * 12 + dt.month) * 32 + dt.day := rfl

theorem getDaysInMonth_succ (y : Int) (m : Nat) :
    getDaysInMonth y (m + 1) = daysInMonth0 y m := rfl

theorem setMonthJS_nat (dt : CalDate) (mT : Nat) :
    setMonthJS dt mT = normDate (dt.year + ((mT / 12 : Nat) : Int)) (mT % 12) dt.day := by
  unfold setMonthJS
  rw [show ((mT : Int)) / 12 = ((mT / 12 : Nat) : Int) by omega,
    show (((mT : Int)) % 12).toNat = mT % 12 by omega]

theorem setMonthJS_add (dt : CalDate) (a b : Nat) :
    setMonthJS dt ((a : Int) + (b : Int)) =
      normDate (dt.year + (((a + b) / 12 : Nat) : Int)) ((a + b) % 12) dt.day := by
  unfold setMonthJS
  rw [show ((a : Int) + (b : Int)) / 12 = (((a + b) / 12 : Nat) : Int) by omega,
    show (((a : Int) + (b : Int)) % 12).toNat = (a + b) % 12 by omega]

/-- The daily step strictly advances the running date and preserves
well-formedness. -/
theorem step_daily (cur : CalDate) (interval im iday : Nat) (hwf : wfDate cur)
    (hi : 1 ≤ interval) :
    ordKey cur < ordKey (calculateNextDate cur "daily" interval im iday) ∧
      wfDate (calculateNextDate cur "daily" interval im iday) := by
  obtain ⟨hm, h1, h2⟩ := hwf
  have hub := daysInMonth0_ub cur.year cur.month
  unfold calculateNextDate setDateJS
  simp only [if_pos rfl]
  constructor
  · rw [ordKey_eq cur]
    exact normDate_key_gt _ _ _ _ (by omega) (by omega)
  · exact normDate_wf _ _ _ (by omega) hm

/-- The weekly step strictly advances the running date and preserves
well-formedness. -/
theorem step_weekly (cur : CalDate) (interval im iday : Nat) (hwf : wfDate cur)
    (hi : 1 ≤ interval) :
    ordKey cur < ordKey (calculateNextDate cur "weekly" interval im iday) ∧
      wfDate (calculateNextDate cur "weekly" interval im iday) := by
  obtain ⟨hm, h1, h2⟩ := hwf
  have hub := daysInMonth0_ub cur.year cur.month
  unfold calculateNextDate setDateJS
  simp only [String.reduceEq, if_neg, if_pos rfl, reduceIte]
  constructor
  · rw [ordKey_eq cur]
    exact normDate_key_gt _ _ _ _ (by omega) (by omega)
  · exact normDate_wf _ _ _ (by omega) hm

/-- The monthly step lands exactly `interval` (or, on day overflow,
`interval + 1`) months later in absolute month count, hence strictly advances
the running date; it also preserves well-formedness. -/
theorem step_monthly (cur : CalDate) (interval im iday : Nat) (hwf : wfDate cur)
    (hi : 1 ≤ interval) (hiday : 1 ≤ iday) :
    ordKey cur < ordKey (calculateNextDate cur "monthly" interval im iday) ∧
      wfDate (calculateNextDate cur "monthly" interval im iday) := by
  obtain ⟨hm, h1, h2⟩ := hwf
  have hub := daysInMonth0_ub cur.year cur.month
  unfold calculateNextDate
  simp only [String.reduceEq, if_neg, if_pos rfl, reduceIte]
  rw [setMonthJS_add]
  set q := (cur.month + interval) / 12 with hq
  set r := (cur.month + interval) % 12 with hr
  have hr12 : r < 12 := Nat.mod_lt _ (by omega)
  have hqr : 12 * q + r = cur.month + interval := Nat.div_add_mod _ 12
  set c1 := normDate (cur.year + q) r cur.day with hc1
  have hc1wf : wfDate c1 := normDate_wf _ _ _ (by omega) hr12
  have hc1lb : ((cur.year + q) * 12 + r) * 32 + 1 ≤ ordKey c1 :=
    normDate_key_lb _ _ _ (by omega)
  obtain ⟨hc1m, hc1d1, hc1d2⟩ := hc1wf
  have hc1ub := daysInMonth0_ub c1.year c1.month
  have hc1abs : cur.year * 12 + cur.month + interval ≤ c1.year * 12 + c1.month := by
    rw [ordKey_eq] at hc1lb
    omega
  rw [getDaysInMonth_succ]
  have hminlb : 1 ≤ min iday (daysInMonth0 c1.year c1.month) := by
    have := daysInMonth0_lb c1.year c1.month
    omega
  unfold setDateJS
  rw [normDate_id _ _ _ hminlb (Nat.min_le_right _ _)]
  refine ⟨?_, hc1m, hminlb, Nat.min_le_right _ _⟩
  rw [ordKey_eq, ordKey_eq]
  simp only
  omega

/-- The yearly step lands in a strictly later year, hence strictly advances
the running date; it also preserves well-formedness. -/
theorem step_yearly (cur : CalDate) (interval im iday : Nat) (hwf : wfDate cur)
    (hi : 1 ≤ interval) (him : im < 12) (hiday : 1 ≤ iday) :
    ordKey cur < ordKey (calculateNextDate cur "yearly" interval im iday) ∧
      wfDate (calculateNextDate cur "yearly" interval im iday) := by
  obtain ⟨hm, h1, h2⟩ := hwf
  unfold calculateNextDate
  simp only [String.reduceEq, if_neg, if_pos rfl, reduceIte]
  unfold setFullYearJS
  set c1 := normDate (cur.year + interval) cur.month cur.day with hc1
  have hc1wf : wfDate c1 := normDate_wf _ _ _ h1 hm
  have hc1y : cur.year + interval ≤ c1.year := normDate_year_ge _ _ _
  obtain ⟨hc1m, hc1d1, hc1d2⟩ := hc1wf
  rw [setMonthJS_nat]
  have him0 : im / 12 = 0 := Nat.div_eq_of_lt him
  have himm : im % 12 = im := Nat.mod_eq_of_lt him
  rw [him0, himm]
  simp only [Nat.cast_zero, add_zero]
  set c2 := normDate c1.year im c1.day with hc2
  have hc2wf : wfDate c2 := normDate_wf _ _ _ hc1d1 him
  have hc2y : c1.year ≤ c2.year := normDate_year_ge _ _ _
  obtain ⟨hc2m, hc2d1, hc2d2⟩ := hc2wf
  rw [getDaysInMonth_succ]
  have hminlb : 1 ≤ min iday (daysInMonth0 c1.year im) := by
    have := daysInMonth0_lb c1.year im
    omega
  unfold setDateJS
  set res := normDate c2.year c2.month (min iday (daysInMonth0 c1.year im)) with hres
  have hreswf : wfDate res := normDate_wf _ _ _ hminlb hc2m
  have hresy : c2.year ≤ res.year := normDate_year_ge _ _ _
  refine ⟨?_, hreswf⟩
  have hlow := wfDate_key_lb res hreswf
  have hcurub : ordKey cur ≤ (cur.year * 12 + 11) * 32 + 31 := by
    rw [ordKey_eq]
    have := daysInMonth0_ub cur.year cur.month
    omega
  omega

/-- A step of any of the four advancing repeat types strictly increases the
running date and preserves well-formedness. -/
theorem step_advances (rt : String)
    (hrt : rt = "daily" ∨ rt = "weekly" ∨ rt = "monthly" ∨ rt = "yearly")
    (cur : CalDate) (interval im iday : Nat) (hwf : wfDate cur)
    (hi : 1 ≤ interval) (him : im < 12) (hiday : 1 ≤ iday) :
    ordKey cur < ordKey (calculateNextDate cur rt interval im iday) ∧
      wfDate (calculateNextDate cur rt interval im iday) := by
  rcases hrt with h | h | h | h <;> subst h
  · exact step_daily cur interval im iday hwf hi
  · exact step_weekly cur interval im iday hwf hi
  · exact step_monthly cur interval im iday hwf hi hiday
  · exact step_yearly cur interval im iday hwf hi him hiday

/-- Every list the refactored generator loop completes with is bounded below
by the running date, bounded above by the effective end date, and strictly
ascending. -/
theorem genLoopA_sound (rt : String)
    (hrt : rt = "none" ∨ rt = "daily" ∨ rt = "weekly" ∨ rt = "monthly" ∨ rt = "yearly")
    (interval im iday : Nat) (endD : CalDate)
    (hi : 1 ≤ interval) (him : im < 12) (hiday : 1 ≤ iday) :
    ∀ (fuel : Nat) (cur : CalDate) (l : List CalDate), wfDate cur →
      genLoopA rt interval im iday endD fuel cur = some l →
      (∀ x ∈ l, ordKey cur ≤ ordKey x ∧ ordKey x ≤ ordKey endD) ∧
        List.Pairwise (fun a b => ordKey a < ordKey b) l := by
  intro fuel
  induction fuel with
  | zero =>
    intro cur l hwf h
    rw [genLoopA] at h
    split at h
    · exact absurd h (by simp)
    · obtain rfl : ([] : List CalDate) = l := Option.some.inj h
      simp
  | succ fuel ih =>
    intro cur l hwf h
    rw [genLoopA] at h
    split at h
    case isFalse => obtain rfl : ([] : List CalDate) = l := Option.some.inj h; simp
    case isTrue hguard =>
      simp only at h
      by_cases hnone : rt = "none"
      · rw [if_pos hnone] at h
        obtain rfl := Option.some.inj h
        constructor
        · intro x hx
          split at hx <;> simp at hx
          subst hx
          exact ⟨le_refl _, hguard⟩
        · split <;> simp
      · rw [if_neg hnone] at h
        rw [Option.map_eq_some'] at h
        obtain ⟨l', hl', rfl⟩ := h
        have hstep := step_advances rt (by tauto) cur interval im iday hwf hi him hiday
        have hrec := ih (calculateNextDate cur rt interval im iday) l' hstep.2 hl'
        constructor
        · intro x hx
          rcases List.mem_append.mp hx with hx | hx
          · split at hx <;> simp at hx
            subst hx
            exact ⟨le_refl _, hguard⟩
          · have := (hrec.1 x hx).1
            exact ⟨by omega, (hrec.1 x hx).2⟩
        · have htail : ∀ x ∈ l', ordKey cur < ordKey x := by
            intro x hx
            have := (hrec.1 x hx).1
            omega
          split
          · exact List.Pairwise.cons htail hrec.2
          · exact hrec.2

/-- With fuel at least the `ordKey` span of the window, the refactored
generator loop completes, for every recognised repeat type. -/
theorem genLoopA_terminates (rt : String)
    (hrt : rt = "none" ∨ rt = "daily" ∨ rt = "weekly" ∨ rt = "monthly" ∨ rt = "yearly")
    (interval im iday : Nat) (endD : CalDate)
    (hi : 1 ≤ interval) (him : im < 12) (hiday : 1 ≤ iday) :
    ∀ (fuel : Nat) (cur : CalDate), wfDate cur →
      (ordKey endD + 1 - ordKey cur).toNat ≤ fuel →
      (genLoopA rt interval im iday endD fuel cur).isSome := by
  intro fuel
  induction fuel with
  | zero =>
    intro cur hwf hfuel
    rw [genLoopA]
    rw [if_neg (by omega)]
    simp
  | succ fuel ih =>
    intro cur hwf hfuel
    rw [genLoopA]
    split
    case isFalse => simp
    case isTrue hguard =>
      simp only
      by_cases hnone : rt = "none"
      · rw [if_pos hnone]; simp
      · rw [if_neg hnone]
        have hstep := step_advances rt (by tauto) cur interval im iday hwf hi him hiday
        have := ih (calculateNextDate cur rt interval im iday) hstep.2 (by omega)
        revert this
        cases genLoopA rt interval im iday endD fuel
          (calculateNextDate cur rt interval im iday) <;> simp

/-- On a repeat type outside the recognised five, the refactored generator
loop never advances the running date and never breaks, so it consumes any
amount of fuel without completing. -/
theorem genLoopA_unrecognized (rt : String)
    (hrt : ¬ (rt = "none" ∨ rt = "daily" ∨ rt = "weekly" ∨ rt = "monthly" ∨ rt = "yearly"))
    (interval im iday : Nat) (endD : CalDate) :
    ∀ (fuel : Nat) (cur : CalDate), ordKey cur ≤ ordKey endD →
      genLoopA rt interval im iday endD fuel cur = none := by
  push_neg at hrt
  obtain ⟨h0, h1, h2, h3, h4⟩ := hrt
  intro fuel
  induction fuel with
  | zero =>
    intro cur hguard
    rw [genLoopA, if_pos hguard]
  | succ fuel ih =>
    intro cur hguard
    rw [genLoopA, if_pos hguard]
    simp only
    rw [if_neg h0]
    have hfix : calculateNextDate cur rt interval im iday = cur := by
      unfold calculateNextDate
      rw [if_neg h1, if_neg h2, if_neg h3, if_neg h4]
    rw [hfix, ih cur hguard]
    rfl

/-- On any repeat type outside the four advancing ones, the original inline
generator loop emits the current candidate and stops via its terminal
`else break`. -/
theorem genLoopB_break (rt : String) (h1 : rt ≠ "daily") (h2 : rt ≠ "weekly")
    (h3 : rt ≠ "monthly") (h4 : rt ≠ "yearly")
    (interval im iday : Nat) (endD : CalDate) (fuel : Nat) (cur : CalDate)
    (hguard : ordKey cur ≤ ordKey endD) :
    genLoopB rt interval im iday endD (fuel + 1) cur = some [cur] := by
  have hm : ¬ (rt = "monthly" ∧ iday = 31) := fun hc => h3 hc.1
  have hy : ¬ (rt = "yearly" ∧ im = 1 ∧ iday = 29) := fun hc => h4 hc.1
  rw [genLoopB, if_pos hguard]
  simp only [if_neg hm, if_neg hy, if_neg h1, if_neg h2, if_neg h3, if_neg h4]
  simp

/-- On the five recognised repeat types, the two generator loops agree at
every fuel, on every running date. -/
theorem genLoop_eq (rt : String)
    (hrt : rt = "none" ∨ rt = "daily" ∨ rt = "weekly" ∨ rt = "monthly" ∨ rt = "yearly")
    (interval im iday : Nat) (endD : CalDate) :
    ∀ (fuel : Nat) (cur : CalDate),
      genLoopA rt interval im iday endD fuel cur =
        genLoopB rt interval im iday endD fuel cur := by
  intro fuel
  induction fuel with
  | zero =>
    intro cur
    rw [genLoopA, genLoopB]
  | succ fuel ih =>
    intro cur
    rw [genLoopA, genLoopB]
    rcases hrt with h | h | h | h | h <;> subst h
    · simp [shouldCreateEvent]
    · simp [shouldCreateEvent, calculateNextDate, ih]
    · simp [shouldCreateEvent, calculateNextDate, ih]
    · have hdim :
          (if iday ≠ 31 then true
            else decide (getDaysInMonth cur.year (cur.month + 1) = 31)) =
          (if iday = 31 then
            !decide (getDaysInMonth cur.year (cur.month + 1) < 31) else true) := by
        by_cases hid : iday = 31
        · rw [if_neg (not_not_intro hid), if_pos hid, getDaysInMonth_succ]
          rcases Nat.lt_or_ge (daysInMonth0 cur.year cur.month) 31 with hl | hl
          · simp [hl, Nat.ne_of_lt hl]
          · have hub := daysInMonth0_ub cur.year cur.month
            have h31 : daysInMonth0 cur.year cur.month = 31 := by omega
            simp [h31]
        · simp [hid]
      simp only [shouldCreateEvent, isValidMonthlyRecurrence, calculateNextDate,
        String.reduceEq, reduceIte, ih, true_and, false_and, hdim]
    · have hdim :
          (if im ≠ 1 ∨ iday ≠ 29 then true else isLeapYear cur.year) =
          (if im = 1 ∧ iday = 29 then isLeapYear cur.year else true) := by
        by_cases hc : im = 1 ∧ iday = 29
        · simp [hc]
        · rw [if_neg hc, if_pos (by tauto)]
      simp only [shouldCreateEvent, isValidYearlyRecurrence, calculateNextDate,
        String.reduceEq, reduceIte, ih, true_and, false_and, hdim]

theorem monthSucc_ne (y : Int) (m : Nat) : (monthSucc y m).2 ≠ m := by
  unfold monthSucc
  split <;> omega

theorem setDateZero_monthSucc (y : Int) (m d' : Nat) (hm : m < 12) :
    setDateZero ⟨(monthSucc y m).1, (monthSucc y m).2, d'⟩ = ⟨y, m, daysInMonth0 y m⟩ := by
  unfold monthSucc setDateZero
  by_cases h11 : m = 11
  · subst h11
    simp
  · simp [h11]

/-- The JS idiom `((x % 12) + 12) % 12` (truncating remainder) computes the
mathematical remainder. -/
theorem tmod_plus_twelve (a : Int) : (a.tmod 12 + 12).tmod 12 = a % 12 := by
  have hneg : (-a).tmod 12 = -(a.tmod 12) := by
    rw [Int.tmod_def, Int.tmod_def, Int.neg_tdiv]
    ring
  have hub : a.tmod 12 < 12 := Int.tmod_lt_of_pos a (by norm_num)
  have hub2 : (-a).tmod 12 < 12 := Int.tmod_lt_of_pos (-a) (by norm_num)
  have hlb : -12 < a.tmod 12 := by
    rcases le_or_lt 0 a with h | h
    · have := Int.tmod_nonneg 12 h
      omega
    · omega
  rw [Int.tmod_eq_emod (by omega) (by norm_num)]
  have hcong : (a.tmod 12) % 12 = a % 12 := by
    conv_rhs => rw [show a = a.tmod 12 + 12 * a.tdiv 12 from (Int.tmod_add_tdiv a 12).symm]
    rw [Int.add_mul_emod_self_left]
  omega

/-- C8: for every date and every integer month offset, when the target month
(year advanced by floor, month congruent to `month + n` mod 12) does not
contain the original day-of-month, `addMonths` returns the last day of that
target month, and in every case it lands exactly in the target month — never
spilling into the following one. -/
theorem c8_addMonths_clamps_to_target_month (dt : CalDate) (n : Int) (hwf : wfDate dt) :
    addMonths dt n =
      if dt.day ≤ daysInMonth0 (dt.year + ((dt.month : Int) + n) / 12)
          (((dt.month : Int) + n) % 12).toNat then
        ⟨dt.year + ((dt.month : Int) + n) / 12, (((dt.month : Int) + n) % 12).toNat, dt.day⟩
      else
        ⟨dt.year + ((dt.month : Int) + n) / 12, (((dt.month : Int) + n) % 12).toNat,
          daysInMonth0 (dt.year + ((dt.month : Int) + n) / 12)
            (((dt.month : Int) + n) % 12).toNat⟩ := by
  obtain ⟨hm, hd1, hd2⟩ := hwf
  set a : Int := (dt.month : Int) + n with ha
  set y' : Int := dt.year + a / 12 with hy'
  set m' : Nat := (a % 12).toNat with hm'
  have hm'lt : m' < 12 := by omega
  have hsm : setMonthJS dt a = normDate y' m' dt.day := rfl
  have hexp : ((a.tmod 12 + 12).tmod 12).toNat = m' := by
    rw [tmod_plus_twelve]
  unfold addMonths
  simp only [← ha, hsm, hexp]
  by_cases hfit : dt.day ≤ daysInMonth0 y' m'
  · rw [normDate_id _ _ _ hd1 hfit, if_pos hfit]
    simp
  · have hlb' := daysInMonth0_lb y' m'
    have hub := daysInMonth0_ub dt.year dt.month
    have hone := normDate_one y' m' dt.day (by omega) (by
      have hlbS := daysInMonth0_lb (monthSucc y' m').1 (monthSucc y' m').2
      omega)
    rw [hone, if_neg hfit]
    rw [if_pos (show (CalDate.mk (monthSucc y' m').1 (monthSucc y' m').2
      (dt.day - daysInMonth0 y' m')).month ≠ m' from monthSucc_ne y' m')]
    exact setDateZero_monthSucc y' m' _ hm'lt

/-- C8 witness: Jan 31 plus one month is clamped to Feb 29 in the leap year
2024 (the target month Feb does not contain the 31st). -/
theorem c8_witness :
    wfDate ⟨2024, 0, 31⟩ ∧
      addMonths ⟨2024, 0, 31⟩ 1 =
        if (31 : Nat) ≤ daysInMonth0 ((2024 : Int) + (((0 : Nat) : Int) + 1) / 12)
            ((((0 : Nat) : Int) + 1) % 12).toNat then
          ⟨(2024 : Int) + (((0 : Nat) : Int) + 1) / 12, ((((0 : Nat) : Int) + 1) % 12).toNat, 31⟩
        else
          ⟨(2024 : Int) + (((0 : Nat) : Int) + 1) / 12, ((((0 : Nat) : Int) + 1) % 12).toNat,
            daysInMonth0 ((2024 : Int) + (((0 : Nat) : Int) + 1) / 12)
              ((((0 : Nat) : Int) + 1) % 12).toNat⟩ :=
  ⟨by decide, c8_addMonths_clamps_to_target_month ⟨2024, 0, 31⟩ 1 (by decide)⟩

/-- C9: `addYears` on Feb 29 clamps to Feb 28 of the target year whenever that
year is not leap (never Mar 1), and on any other valid date it preserves the
month and day-of-month, for every integer year offset. -/
theorem c9_addYears_feb29_clamp (dt : CalDate) (n : Int) (hwf : wfDate dt) :
    (dt.month = 1 ∧ dt.day = 29 →
      addYears dt n =
        if isLeapYear (dt.year + n) then ⟨dt.year + n, 1, 29⟩ else ⟨dt.year + n, 1, 28⟩) ∧
    (¬ (dt.month = 1 ∧ dt.day = 29) →
      addYears dt n = ⟨dt.year + n, dt.month, dt.day⟩) := by
  obtain ⟨hm, hd1, hd2⟩ := hwf
  constructor
  · rintro ⟨hmo, hda⟩
    unfold addYears setFullYearJS
    rw [hmo, hda]
    by_cases hleap : isLeapYear (dt.year + n) = true
    · have hdim : daysInMonth0 (dt.year + n) 1 = 29 := by
        unfold daysInMonth0
        simp [hleap]
      rw [normDate_id _ _ _ (by omega) (by omega), if_pos hleap]
      rw [if_neg (by simp)]
    · have hdim : daysInMonth0 (dt.year + n) 1 = 28 := by
        unfold daysInMonth0
        simp [hleap]
      have hsucc : monthSucc (dt.year + n) 1 = (dt.year + n, 2) := by
        unfold monthSucc; simp
      have hone := normDate_one (dt.year + n) 1 29 (by omega)
        (by rw [hsucc]; have h2 := daysInMonth0_lb (dt.year + n) 2; simp only; omega)
      rw [hone, hsucc]
      rw [if_pos (by refine ⟨rfl, rfl, ?_⟩; simp)]
      rw [if_neg hleap]
      unfold setDateZero
      simp [hdim]
  · intro hnot
    unfold addYears setFullYearJS
    have hdim : dt.day ≤ daysInMonth0 (dt.year + n) dt.month := by
      by_cases hmo : dt.month = 1
      · rw [hmo] at hd2
        have h29 : daysInMonth0 dt.year 1 ≤ 29 := by
          unfold daysInMonth0
          simp only [reduceIte]
          split <;> omega
        have hne : dt.day ≠ 29 := fun hc => hnot ⟨hmo, hc⟩
        have hlb2 := daysInMonth0_lb (dt.year + n) dt.month
        omega
      · rw [daysInMonth0_not_feb (dt.year + n) dt.year dt.month hmo]
        exact hd2
    rw [normDate_id _ _ _ hd1 hdim]
    rw [if_neg (fun hc => hnot ⟨hc.1, hc.2.1⟩)]

/-- C9 witness: 2023-02-28 (not Feb 29) keeps its month and day when a year is
added, landing on 2024-02-28. -/
theorem c9_witness :
    wfDate ⟨2023, 1, 28⟩ ∧ addYears ⟨2023, 1, 28⟩ 1 = ⟨(2023 : Int) + 1, 1, 28⟩ :=
  ⟨by decide, (c9_addYears_feb29_clamp ⟨2023, 1, 28⟩ 1 (by decide)).2 (by decide)⟩

/-- C4 (amended): the monthly step equals `setMonth`-style month advancement —
landing in the target month when the running day-of-month fits there and in
the month after it when the day overflows — followed by re-pinning the day to
`min(originalDay, daysInMonth)` of the landed month.  It does not equal
`addMonths` plus re-pinning, which would clamp into the target month. -/
theorem c4_monthly_next_characterization (cur : CalDate) (interval im iday : Nat)
    (hwf : wfDate cur) (_hi : 1 ≤ interval) (hiday : 1 ≤ iday) :
    (cur.day ≤ daysInMonth0 (monthlyTargetYear cur interval) (monthlyTargetMonth cur interval) →
      calculateNextDate cur "monthly" interval im iday =
        ⟨monthlyTargetYear cur interval, monthlyTargetMonth cur interval,
          min iday (daysInMonth0 (monthlyTargetYear cur interval)
            (monthlyTargetMonth cur interval))⟩) ∧
    (¬ cur.day ≤ daysInMonth0 (monthlyTargetYear cur interval) (monthlyTargetMonth cur interval) →
      calculateNextDate cur "monthly" interval im iday =
        ⟨(monthSucc (monthlyTargetYear cur interval) (monthlyTargetMonth cur interval)).1,
          (monthSucc (monthlyTargetYear cur interval) (monthlyTargetMonth cur interval)).2,
          min iday (daysInMonth0
            (monthSucc (monthlyTargetYear cur interval) (monthlyTargetMonth cur interval)).1
            (monthSucc (monthlyTargetYear cur interval) (monthlyTargetMonth cur interval)).2)⟩) := by
  obtain ⟨hm, hd1, hd2⟩ := hwf
  have hub := daysInMonth0_ub cur.year cur.month
  unfold calculateNextDate
  simp only [String.reduceEq, reduceIte]
  rw [setMonthJS_add]
  have hTY : cur.year + (((cur.month + interval) / 12 : Nat) : Int) =
      monthlyTargetYear cur interval := rfl
  have hTM : (cur.month + interval) % 12 = monthlyTargetMonth cur interval := rfl
  rw [hTY, hTM]
  set tY := monthlyTargetYear cur interval
  set tM := monthlyTargetMonth cur interval
  constructor
  · intro hfit
    rw [normDate_id tY tM cur.day hd1 hfit]
    rw [getDaysInMonth_succ]
    unfold setDateJS
    dsimp only
    have hlb := daysInMonth0_lb tY tM
    rw [normDate_id _ _ _ (by omega) (Nat.min_le_right _ _)]
  · intro hfit
    have hlbS := daysInMonth0_lb (monthSucc tY tM).1 (monthSucc tY tM).2
    have hlb := daysInMonth0_lb tY tM
    rw [normDate_one tY tM cur.day (by omega) (by omega)]
    rw [getDaysInMonth_succ]
    unfold setDateJS
    dsimp only
    rw [normDate_id _ _ _ (by omega) (Nat.min_le_right _ _)]

/-- C4 witness: stepping from 2025-03-31 by one month with original day 31:
the 31st overflows April (30 days), so the candidate lands in May, re-pinned
to the 31st — 2025-05-31. -/
theorem c4_witness :
    ¬ (31 : Nat) ≤ daysInMonth0 (monthlyTargetYear ⟨2025, 2, 31⟩ 1)
        (monthlyTargetMonth ⟨2025, 2, 31⟩ 1) ∧
      calculateNextDate ⟨2025, 2, 31⟩ "monthly" 1 2 31 =
        ⟨(monthSucc (monthlyTargetYear ⟨2025, 2, 31⟩ 1) (monthlyTargetMonth ⟨2025, 2, 31⟩ 1)).1,
          (monthSucc (monthlyTargetYear ⟨2025, 2, 31⟩ 1) (monthlyTargetMonth ⟨2025, 2, 31⟩ 1)).2,
          min 31 (daysInMonth0
            (monthSucc (monthlyTargetYear ⟨2025, 2, 31⟩ 1) (monthlyTargetMonth ⟨2025, 2, 31⟩ 1)).1
            (monthSucc (monthlyTargetYear ⟨2025, 2, 31⟩ 1)
              (monthlyTargetMonth ⟨2025, 2, 31⟩ 1)).2)⟩ :=
  ⟨by decide,
    (c4_monthly_next_characterization ⟨2025, 2, 31⟩ 1 2 31 (by decide) (by decide) (by decide)).2
      (by decide)⟩

/-- C4 counterexample: from the candidate 2025-01-31 with interval 1 and
original day 31, the generator step yields 2025-03-31, not the
`addMonths`-then-re-pin result 2025-02-28 claimed by the spec; its month is
two months past January, not one. -/
theorem c4_not_addMonths_counterexample :
    calculateNextDate ⟨2025, 0, 31⟩ "monthly" 1 0 31 = ⟨2025, 2, 31⟩ ∧
      monthlyNextSpec ⟨2025, 0, 31⟩ 1 31 = ⟨2025, 1, 28⟩ ∧
      calculateNextDate ⟨2025, 0, 31⟩ "monthly" 1 0 31 ≠ monthlyNextSpec ⟨2025, 0, 31⟩ 1 31 ∧
      (calculateNextDate ⟨2025, 0, 31⟩ "monthly" 1 0 31).month ≠ 0 + 1 := by
  refine ⟨by decide, by decide, by decide, by decide⟩

/-- The refactored generator on `type = none`: one iteration emits the start
date (the validity predicate defaults to true) and the loop breaks; when the
start date is already past the effective end date, the loop body never runs. -/
theorem genLoopA_none_eq (interval im iday : Nat) (endD : CalDate) (fuel : Nat)
    (cur : CalDate) (hf : 1 ≤ fuel) :
    genLoopA "none" interval im iday endD fuel cur =
      some (if ordKey cur ≤ ordKey endD then [cur] else []) := by
  match fuel, hf with
  | fuel + 1, _ =>
    rw [genLoopA]
    split
    case isTrue hg => simp [shouldCreateEvent, hg]
    case isFalse hg => simp [hg]

/-- C1: for a recognised repeat type and interval at least 1, every emitted
occurrence lies between the start date and the horizon-clamped effective end
date, inclusive (dates compared through the chronological key `ordKey`). -/
theorem c1_occurrences_within_range (rt : String)
    (hrt : rt = "none" ∨ rt = "daily" ∨ rt = "weekly" ∨ rt = "monthly" ∨ rt = "yearly")
    (interval : Nat) (hi : 1 ≤ interval) (startDate repeatEndDate : CalDate)
    (hs : wfDate startDate) (_he : wfDate repeatEndDate) (fuel : Nat) (l : List CalDate)
    (hgen : generateRecurringEventsA rt interval startDate repeatEndDate fuel = some l) :
    ∀ x ∈ l, ordKey startDate ≤ ordKey x ∧
      ordKey x ≤ ordKey (getEffectiveEndDate repeatEndDate) :=
  (genLoopA_sound rt hrt interval startDate.month startDate.day
    (getEffectiveEndDate repeatEndDate) hi hs.1 hs.2.1 fuel startDate l hs hgen).1

/-- C1 witness: in the daily run 2023-01-01 .. 2023-01-03, the emitted
occurrence 2023-01-02 lies within the requested window. -/
theorem c1_witness :
    ordKey (⟨2023, 0, 1⟩ : CalDate) ≤ ordKey ⟨2023, 0, 2⟩ ∧
      ordKey (⟨2023, 0, 2⟩ : CalDate) ≤ ordKey (getEffectiveEndDate ⟨2023, 0, 3⟩) :=
  c1_occurrences_within_range "daily" (Or.inr (Or.inl rfl)) 1 (by decide)
    ⟨2023, 0, 1⟩ ⟨2023, 0, 3⟩ (by decide) (by decide) 5
    [⟨2023, 0, 1⟩, ⟨2023, 0, 2⟩, ⟨2023, 0, 3⟩] (by decide) ⟨2023, 0, 2⟩ (by decide)

/-- C5: for a recognised repeat type and interval at least 1, any list the
generator completes with is strictly ascending in date (hence duplicate-free),
with no sorting step anywhere in the generator. -/
theorem c5_output_strictly_ascending (rt : String)
    (hrt : rt = "none" ∨ rt = "daily" ∨ rt = "weekly" ∨ rt = "monthly" ∨ rt = "yearly")
    (interval : Nat) (hi : 1 ≤ interval) (startDate repeatEndDate : CalDate)
    (hs : wfDate startDate) (fuel : Nat) (l : List CalDate)
    (hgen : generateRecurringEventsA rt interval startDate repeatEndDate fuel = some l) :
    List.Pairwise (fun a b => ordKey a < ordKey b) l :=
  (genLoopA_sound rt hrt interval startDate.month startDate.day
    (getEffectiveEndDate repeatEndDate) hi hs.1 hs.2.1 fuel startDate l hs hgen).2

/-- C5 witness: the monthly run from 2023-01-31 emits [2023-01-31, 2023-03-31]
in strictly ascending order. -/
theorem c5_witness :
    List.Pairwise (fun a b => ordKey a < ordKey b)
      [(⟨2023, 0, 31⟩ : CalDate), ⟨2023, 2, 31⟩] :=
  c5_output_strictly_ascending "monthly" (Or.inr (Or.inr (Or.inr (Or.inl rfl)))) 1
    (by decide) ⟨2023, 0, 31⟩ ⟨2023, 3, 30⟩ (by decide) 9
    [⟨2023, 0, 31⟩, ⟨2023, 2, 31⟩] (by decide)

/-- C2 counterexample: the claim quantifies over every input, but on an
unrecognised repeat type the refactored generator's loop neither advances the
date nor breaks, so it never runs to completion: at this concrete input the
fuelled loop returns nothing at every fuel. -/
theorem c2_unrecognized_type_diverges :
    genADiverges "biweekly" 1 ⟨2025, 0, 1⟩ ⟨2025, 0, 10⟩ := by
  intro fuel
  exact genLoopA_unrecognized "biweekly" (by decide) 1 0 1
    (getEffectiveEndDate ⟨2025, 0, 10⟩) fuel ⟨2025, 0, 1⟩ (by decide)

/-- C2 (amended): restricted to the five recognised repeat types with interval
at least 1, the generator always runs to completion, within a number of loop
iterations bounded by the chronological span of the window from the start date
to the horizon-clamped end date. -/
theorem c2_terminates_for_valid_types (rt : String)
    (hrt : rt = "none" ∨ rt = "daily" ∨ rt = "weekly" ∨ rt = "monthly" ∨ rt = "yearly")
    (interval : Nat) (hi : 1 ≤ interval) (startDate repeatEndDate : CalDate)
    (hs : wfDate startDate) :
    (generateRecurringEventsA rt interval startDate repeatEndDate
      ((ordKey (getEffectiveEndDate repeatEndDate) + 1 - ordKey startDate).toNat)).isSome := by
  unfold generateRecurringEventsA
  exact genLoopA_terminates rt hrt interval startDate.month startDate.day
    (getEffectiveEndDate repeatEndDate) hi hs.1 hs.2.1 _ startDate hs (le_refl _)

/-- C2 witness: the daily run from 2025-12-30 against a requested end past the
horizon completes within the span-derived fuel bound. -/
theorem c2_witness :
    (generateRecurringEventsA "daily" 1 ⟨2025, 11, 30⟩ ⟨2026, 0, 5⟩
      ((ordKey (getEffectiveEndDate ⟨2026, 0, 5⟩) + 1 - ordKey ⟨2025, 11, 30⟩).toNat)).isSome :=
  c2_terminates_for_valid_types "daily" (Or.inr (Or.inl rfl)) 1 (by decide)
    ⟨2025, 11, 30⟩ ⟨2026, 0, 5⟩ (by decide)

/-- C7 counterexample: with `type = none` but the start date past the
horizon-clamped end date (requested end 2026-01-05 is clamped to 2025-12-31,
before the start 2026-01-01), the generator emits zero occurrences, not one. -/
theorem c7_none_empty_counterexample :
    generateRecurringEventsA "none" 1 ⟨2026, 0, 1⟩ ⟨2026, 0, 5⟩ 1 = some [] ∧
      generateRecurringEventsA "none" 1 ⟨2026, 0, 1⟩ ⟨2026, 0, 5⟩ 1 ≠
        some [⟨2026, 0, 1⟩] := by
  refine ⟨by decide, by decide⟩

/-- C7 (amended): with `type = none`, the generator emits exactly one
occurrence, dated at the start date, whenever the start date does not exceed
the effective end date, and none at all otherwise; in both cases it stops
without further iteration (one unit of fuel suffices). -/
theorem c7_none_single_occurrence (interval : Nat) (startDate repeatEndDate : CalDate)
    (fuel : Nat) (hf : 1 ≤ fuel) :
    generateRecurringEventsA "none" interval startDate repeatEndDate fuel =
      some (if ordKey startDate ≤ ordKey (getEffectiveEndDate repeatEndDate)
        then [startDate] else []) :=
  genLoopA_none_eq interval startDate.month startDate.day
    (getEffectiveEndDate repeatEndDate) fuel startDate hf

/-- C7 witness: a `none` event starting 2025-06-10 before its end date yields
exactly the single occurrence 2025-06-10. -/
theorem c7_witness :
    generateRecurringEventsA "none" 1 ⟨2025, 5, 10⟩ ⟨2025, 5, 20⟩ 3 =
      some (if ordKey (⟨2025, 5, 10⟩ : CalDate) ≤ ordKey (getEffectiveEndDate ⟨2025, 5, 20⟩)
        then [⟨2025, 5, 10⟩] else []) :=
  c7_none_single_occurrence 1 ⟨2025, 5, 10⟩ ⟨2025, 5, 20⟩ 3 (by decide)

/-- C6 counterexample: on the malformed repeat type "invalid", the original
inline variant terminates returning the accumulated single occurrence, while
the refactored variant does not signal any unsupported-type error — it never
completes at all (its loop neither advances nor breaks). -/
theorem c6_no_error_counterexample :
    genADiverges "invalid" 1 ⟨2025, 0, 1⟩ ⟨2025, 0, 2⟩ ∧
      generateRecurringEventsB "invalid" 1 ⟨2025, 0, 1⟩ ⟨2025, 0, 2⟩ 1 =
        some [⟨2025, 0, 1⟩] := by
  constructor
  · intro fuel
    exact genLoopA_unrecognized "invalid" (by decide) 1 0 1
      (getEffectiveEndDate ⟨2025, 0, 2⟩) fuel ⟨2025, 0, 1⟩ (by decide)
  · decide

/-- C6 (amended): on a repeat type outside the recognised five, with the start
date within the effective window, the original inline variant stops after one
iteration via its terminal `else break` and returns the single accumulated
occurrence, while the refactored variant performs no advancement and never
terminates; neither variant signals an unsupported-type error. -/
theorem c6_malformed_type_behavior (rt : String)
    (hrt : ¬ (rt = "none" ∨ rt = "daily" ∨ rt = "weekly" ∨ rt = "monthly" ∨ rt = "yearly"))
    (interval : Nat) (startDate repeatEndDate : CalDate)
    (hguard : ordKey startDate ≤ ordKey (getEffectiveEndDate repeatEndDate)) :
    generateRecurringEventsB rt interval startDate repeatEndDate 1 = some [startDate] ∧
      genADiverges rt interval startDate repeatEndDate := by
  have h1 : rt ≠ "daily" := fun hc => hrt (Or.inr (Or.inl hc))
  have h2 : rt ≠ "weekly" := fun hc => hrt (Or.inr (Or.inr (Or.inl hc)))
  have h3 : rt ≠ "monthly" := fun hc => hrt (Or.inr (Or.inr (Or.inr (Or.inl hc))))
  have h4 : rt ≠ "yearly" := fun hc => hrt (Or.inr (Or.inr (Or.inr (Or.inr hc))))
  constructor
  · unfold generateRecurringEventsB
    exact genLoopB_break rt h1 h2 h3 h4 interval startDate.month startDate.day
      (getEffectiveEndDate repeatEndDate) 0 startDate hguard
  · intro fuel
    exact genLoopA_unrecognized rt hrt interval startDate.month startDate.day
      (getEffectiveEndDate repeatEndDate) fuel startDate hguard

/-- C6 witness: concrete malformed type "unknown" inside the window. -/
theorem c6_witness :
    generateRecurringEventsB "unknown" 1 ⟨2025, 5, 10⟩ ⟨2025, 5, 20⟩ 1 =
        some [⟨2025, 5, 10⟩] ∧
      genADiverges "unknown" 1 ⟨2025, 5, 10⟩ ⟨2025, 5, 20⟩ :=
  c6_malformed_type_behavior "unknown" (by decide) 1 ⟨2025, 5, 10⟩ ⟨2025, 5, 20⟩ (by decide)

/-- C3 counterexample: yearly, interval 1, start 2024-02-29, requested end
2028-02-29.  The effective end date is clamped to the 2025-12-31 horizon, so
the generator emits only 2024-02-29; the occurrence on 2028-02-29 that the
claim demands is never produced. -/
theorem c3_horizon_counterexample :
    generateRecurringEventsA "yearly" 1 ⟨2024, 1, 29⟩ ⟨2028, 1, 29⟩ 10 =
        some [⟨2024, 1, 29⟩] ∧
      generateRecurringEventsA "yearly" 1 ⟨2024, 1, 29⟩ ⟨2028, 1, 29⟩ 10 ≠
        some [⟨2024, 1, 29⟩, ⟨2028, 1, 29⟩] := by
  refine ⟨by decide, by decide⟩

/-- C3 (amended): for yearly recurrence from 2024-02-29 with requested end
2028-02-29, the generator emits exactly one occurrence, formatted
"2024-02-29": the 2025 candidate (re-pinned to Feb 28) is skipped as non-leap
and generation stops at the 2025-12-31 horizon before any later candidate, so
2028-02-29 is cut off.  Both source variants agree on this output. -/
theorem c3_yearly_leap_horizon_output :
    generateRecurringEventsA "yearly" 1 ⟨2024, 1, 29⟩ ⟨2028, 1, 29⟩ 10 =
        some [⟨2024, 1, 29⟩] ∧
      generateRecurringEventsB "yearly" 1 ⟨2024, 1, 29⟩ ⟨2028, 1, 29⟩ 10 =
        some [⟨2024, 1, 29⟩] ∧
      List.map formatDate [(⟨2024, 1, 29⟩ : CalDate)] = ["2024-02-29"] := by
  refine ⟨by decide, by decide, ?_⟩
  rfl

/-- C10: on each of the five recognised repeat types, the refactored and the
original inline variants of the generator return identical occurrence
sequences — for every interval, start date, requested end date, and fuel. -/
theorem c10_variants_agree (rt : String)
    (hrt : rt = "none" ∨ rt = "daily" ∨ rt = "weekly" ∨ rt = "monthly" ∨ rt = "yearly")
    (interval : Nat) (_hi : 1 ≤ interval) (startDate repeatEndDate : CalDate)
    (fuel : Nat) :
    generateRecurringEventsA rt interval startDate repeatEndDate fuel =
      generateRecurringEventsB rt interval startDate repeatEndDate fuel :=
  genLoop_eq rt hrt interval startDate.month startDate.day
    (getEffectiveEndDate repeatEndDate) fuel startDate

/-- C10 witness: both variants produce the same list on the monthly
31st-of-month run 2023-01-31 .. 2023-04-30. -/
theorem c10_witness :
    generateRecurringEventsA "monthly" 1 ⟨2023, 0, 31⟩ ⟨2023, 3, 30⟩ 9 =
      generateRecurringEventsB "monthly" 1 ⟨2023, 0, 31⟩ ⟨2023, 3, 30⟩ 9 :=
  c10_variants_agree "monthly" (Or.inr (Or.inr (Or.inr (Or.inl rfl)))) 1 (by decide)
    ⟨2023, 0, 31⟩ ⟨2023, 3, 30⟩ 9
